import Mathlib

/-!
Verification of the IDABBDPRE band-block-diagonal preconditioner module
(`src/fmi4c/3rdparty/sundials/include/ida/ida_bbdpre.h`).

The repository ships only the public header of the module; the routine
bodies (`ida_bbdpre.c`) are not part of the sources.  Definitions whose
doc comment starts with `Modelled from the spec:` therefore embed the
behaviour the specification describes for those missing bodies, faithful
to its words; the header file fixes the interfaces, argument lists and
the documented status codes.
-/

namespace IDABBDPre

/-- Status codes returned by the module operations, as listed in the
header (`IDASPILS_SUCCESS`, `IDASPILS_MEM_NULL`, `IDASPILS_LMEM_NULL`,
`IDASPILS_PMEM_NULL`, `IDASPILS_ILL_INPUT`, `IDASPILS_MEM_FAIL`); the
spec calls them Success, MissingContext, MissingLinearSolverContext,
MissingPreconditionerState, IllegalInput, AllocationFailure. -/
inductive Status where
  | success
  | memNull
  | lmemNull
  | pmemNull
  | illInput
  | memFail
  deriving DecidableEq, Repr

/-- Modelled from the spec: the square root of the machine unit roundoff,
the default relative increment used when `dq_rel_yy = 0` is passed
(header lines 200-204).  For IEEE double precision the unit roundoff is
2 ^ (-52), whose square root 2 ^ (-26) is exactly representable. -/
def sqrtUround : ℚ := 1 / 2 ^ 26

/-- Modelled from the spec: the `IBBDPrecData` record owned by the module
(the defining `ida_bbdpre.c`/`ida_bbdpre_impl.h` are not in the sources).
It holds the partition configuration, the banded preconditioner matrix
`PP` (total-index view: `PP i j` is the entry in row `i`, column `j`,
zero wherever nothing was stored), the committed factorization, the
allocation sizes, and the cumulative `Gres` call counter `nge`. -/
structure IBBDPrecData where
  n_local : Int
  mudq : Int
  mldq : Int
  mukeep : Int
  mlkeep : Int
  rel_yy : ℚ
  PP : Int → Int → ℚ
  pivotsLen : Nat
  scratch1Len : Nat
  scratch2Len : Nat
  factored : Option (Int → Int → ℚ)
  nge : Nat
  rpwsize : Nat
  ipwsize : Nat
  hasComm : Bool

/-- Linear-solver memory block; the preconditioner state hangs off it. -/
structure IDALMemRec where
  pdata : Option IBBDPrecData

/-- Integrator memory block returned by `IDACreate`. -/
structure IDAMemRec where
  lmem : Option IDALMemRec

/-- An `ida_mem` handle: possibly NULL integrator memory. -/
abbrev IDAContext : Type := Option IDAMemRec

/-- Modelled from the spec: the input validation of `IDABBDPrecInit`
(body missing from the sources); the spec validates length > 0 and
kept bandwidths ≤ evaluation bandwidths ≤ length − 1, failing with the
illegal-input condition otherwise. -/
def initInputBad (Nlocal mudq mldq mukeep mlkeep : Int) : Prop :=
  Nlocal ≤ 0 ∨ mukeep > mudq ∨ mlkeep > mldq ∨
    mudq > Nlocal - 1 ∨ mldq > Nlocal - 1

instance (Nlocal mudq mldq mukeep mlkeep : Int) :
    Decidable (initInputBad Nlocal mudq mldq mukeep mlkeep) := by
  unfold initInputBad; infer_instance

/-- Modelled from the spec: `IDABBDPrecInit` (body missing from the
sources).  Checks the contexts, validates the inputs, then allocates the
banded matrix sized n × (mukeep + mlkeep + 1), the pivot array and two
scratch vectors of length n, zero-initializes the counter and stores the
configuration; `dq_rel_yy = 0` is substituted with the square root of
the unit roundoff.  `allocOk` models the allocator outcome; on any
failure no preconditioner state is produced. -/
def IDABBDPrecInit (ctx : IDAContext) (Nlocal mudq mldq mukeep mlkeep : Int)
    (dq_rel_yy : ℚ) (hasComm : Bool) (allocOk : Bool) :
    Status × Option IBBDPrecData :=
  match ctx with
  | none => (Status.memNull, none)
  | some mem =>
    match mem.lmem with
    | none => (Status.lmemNull, none)
    | some _ =>
      if initInputBad Nlocal mudq mldq mukeep mlkeep then
        (Status.illInput, none)
      else if allocOk = false then
        (Status.memFail, none)
      else
        (Status.success, some
          { n_local := Nlocal
            mudq := mudq
            mldq := mldq
            mukeep := mukeep
            mlkeep := mlkeep
            rel_yy := if dq_rel_yy = 0 then sqrtUround else dq_rel_yy
            PP := fun _ _ => 0
            pivotsLen := Nlocal.toNat
            scratch1Len := Nlocal.toNat
            scratch2Len := Nlocal.toNat
            factored := none
            nge := 0
            rpwsize := Nlocal.toNat * (mukeep + mlkeep + 1).toNat
                         + 2 * Nlocal.toNat
            ipwsize := Nlocal.toNat
            hasComm := hasComm })

/-- Modelled from the spec: the state update of `IDABBDPrecReInit` (body
missing from the sources); only the two evaluation half-bandwidths and
the relative perturbation factor change, with the zero-perturbation
default substituted as at initialization. -/
def reinitPd (pd : IBBDPrecData) (mudq mldq : Int) (dq_rel_yy : ℚ) :
    IBBDPrecData :=
  { pd with
    mudq := mudq
    mldq := mldq
    rel_yy := if dq_rel_yy = 0 then sqrtUround else dq_rel_yy }

/-- Modelled from the spec: `IDABBDPrecReInit` (body missing from the
sources).  Fails with the missing-context conditions when the integrator
memory, the linear-solver memory or the preconditioner state is absent;
otherwise updates the evaluation half-bandwidths and the perturbation
factor in place, reallocating nothing. -/
def IDABBDPrecReInit (ctx : IDAContext) (mudq mldq : Int) (dq_rel_yy : ℚ) :
    Status × IDAContext :=
  match ctx with
  | none => (Status.memNull, none)
  | some mem =>
    match mem.lmem with
    | none => (Status.lmemNull, some mem)
    | some lm =>
      match lm.pdata with
      | none => (Status.pmemNull, some mem)
      | some pd =>
        (Status.success,
          some { lmem := some { pdata := some (reinitPd pd mudq mldq dq_rel_yy) } })

/-- Modelled from the spec: `IDABBDPrecGetWorkSpace` (body missing from
the sources); reports the cumulative real and integer work-space words,
read-only and side-effect-free, returning the missing-state conditions
when a context link is absent.  The returned context is the state after
the call. -/
def IDABBDPrecGetWorkSpace (ctx : IDAContext) :
    Status × Option (Nat × Nat) × IDAContext :=
  match ctx with
  | none => (Status.memNull, none, none)
  | some mem =>
    match mem.lmem with
    | none => (Status.lmemNull, none, some mem)
    | some lm =>
      match lm.pdata with
      | none => (Status.pmemNull, none, some mem)
      | some pd => (Status.success, some (pd.rpwsize, pd.ipwsize), some mem)

/-- Modelled from the spec: `IDABBDPrecGetNumGfnEvals` (body missing from
the sources); reports the cumulative number of `Gres` calls, read-only
and side-effect-free.  The returned context is the state after the
call. -/
def IDABBDPrecGetNumGfnEvals (ctx : IDAContext) :
    Status × Option Nat × IDAContext :=
  match ctx with
  | none => (Status.memNull, none, none)
  | some mem =>
    match mem.lmem with
    | none => (Status.lmemNull, none, some mem)
    | some lm =>
      match lm.pdata with
      | none => (Status.pmemNull, none, some mem)
      | some pd => (Status.success, some pd.nge, some mem)

/-- Modelled from the spec: the number of perturbation groups of one
setup sweep (the difference-quotient routine of the missing
`ida_bbdpre.c`): `groupCount = ceil(localLength / (mudq + mldq + 1))`. -/
def groupCount (pd : IBBDPrecData) : Nat :=
  let width := (pd.mudq + pd.mldq + 1).toNat
  (pd.n_local.toNat + width - 1) / width

/-- Modelled from the spec: the difference-quotient perturbation of one
state component, `max(relative factor × |component|, absolute floor)`
(spec step 3; the computing body is missing from the sources). -/
def perturbation (rel_yy flo yj : ℚ) : ℚ :=
  max (rel_yy * |yj|) flo

/-- First failing call in a sequence of evaluator return codes: scans
return codes `f start, f (start+1), ...` for `m` calls and yields the
index and code of the first nonzero one. -/
def firstFailAux (f : Nat → Int) (start : Nat) : Nat → Option (Nat × Int)
  | 0 => none
  | m + 1 =>
    if f start ≠ 0 then some (start, f start)
    else firstFailAux f (start + 1) m

/-- First failing call among calls `0, ..., m - 1`. -/
def firstFail (f : Nat → Int) (m : Nat) : Option (Nat × Int) :=
  firstFailAux f 0 m

/-- Modelled from the spec: writing one computed difference-quotient
column `j` into the banded matrix of the missing difference-quotient
routine, discarding entries outside the kept half-bandwidths — only rows
`i` with `max(0, j - mukeep) ≤ i ≤ min(n - 1, j + mlkeep)` are stored. -/
def writeColumn (n : Nat) (mukeep mlkeep : Int) (j : Int) (col : Int → ℚ)
    (M : Int → Int → ℚ) : Int → Int → ℚ :=
  fun i jq =>
    if jq = j ∧ max 0 (j - mukeep) ≤ i ∧ i ≤ min ((n : Int) - 1) (j + mlkeep)
    then col i else M i jq

/-- Modelled from the spec: the stored banded matrix produced by one
setup sweep of the missing difference-quotient routine — every computed
column (the full columns `cols`, defined out to the wider evaluation
bandwidths) is written over a zero matrix with the out-of-kept-band
entries discarded. -/
def buildPP (n : Nat) (mukeep mlkeep : Int) (cols : Int → Int → ℚ) :
    Int → Int → ℚ :=
  (List.range n).foldl
    (fun M (j : Nat) =>
      writeColumn n mukeep mlkeep (Int.ofNat j) (fun i => cols i (Int.ofNat j)) M)
    (fun _ _ => 0)

/-- Outcome of one preconditioner setup request as seen by the calling
integrator: success, a recoverable failure (positive signal), or an
unrecoverable one (negative signal). -/
inductive SetupOutcome where
  | success
  | recoverable
  | unrecoverable
  deriving DecidableEq, Repr

/-- Modelled from the spec: one preconditioner setup request of the
missing `IDABBDPrecSetup`/difference-quotient routine.  `gcommRet` is
the communication-hook return code (consulted only when a hook was
supplied), `glocalRet k` the return code of the k-th `Gres` call (call 0
is the unperturbed baseline, calls 1..groupCount the perturbed sweeps),
`cols` the finite-difference columns the completed sweep determines, and
`factorOk` the banded LU outcome.  Positive callback codes propagate as
recoverable failures and negative ones as unrecoverable failures leaving
the state unchanged except for the calls already counted; on a full
sweep the kept-band matrix is built and, only if factorization succeeds,
committed together with its factorization. -/
def precSetup (pd : IBBDPrecData) (gcommRet : Int) (glocalRet : Nat → Int)
    (cols : Int → Int → ℚ) (factorOk : Bool) :
    SetupOutcome × IBBDPrecData :=
  if pd.hasComm ∧ gcommRet > 0 then (SetupOutcome.recoverable, pd)
  else if pd.hasComm ∧ gcommRet < 0 then (SetupOutcome.unrecoverable, pd)
  else
    let ng := groupCount pd
    match firstFail glocalRet (ng + 1) with
    | some kr =>
      if kr.2 > 0 then
        (SetupOutcome.recoverable, { pd with nge := pd.nge + kr.1 + 1 })
      else
        (SetupOutcome.unrecoverable, { pd with nge := pd.nge + kr.1 + 1 })
    | none =>
      let PPnew := buildPP pd.n_local.toNat pd.mukeep pd.mlkeep cols
      if factorOk then
        (SetupOutcome.success,
          { pd with
            nge := pd.nge + ng + 1
            PP := PPnew
            factored := some PPnew })
      else
        (SetupOutcome.recoverable, { pd with nge := pd.nge + ng + 1 })

/-- Modelled from the spec: the apply operation (missing
`IDABBDPrecSolve`) delegates the right-hand side to the external
backsolve kernel against the most recently committed factorization; with
no factorization present there is nothing to solve against. -/
def precApply (pd : IBBDPrecData)
    (solve : (Int → Int → ℚ) → (Int → ℚ) → (Int → ℚ)) (r : Int → ℚ) :
    Option (Int → ℚ) :=
  pd.factored.map (fun F => solve F r)

/-- Events observable on one integrator step that requests a
preconditioner setup: the system residual call, the communication-hook
call and the local-evaluator calls, each carrying the state and
derivative vectors it receives. -/
inductive Event (α : Type) where
  | resCall (yy yp : α)
  | commCall (yy yp : α)
  | glocalCall (yy yp : α)
  deriving DecidableEq

/-- Modelled from the spec: the call trace of one setup request (the
sequencing code of the missing `ida_bbdpre.c` and its caller).  The
integrator evaluates the system residual on the current vectors before
requesting setup; setup then invokes the communication hook — only if
one was supplied — once with those same vectors, and then performs the
local-evaluator sweep on the (possibly perturbed) argument pairs
`evalArgs`. -/
def setupTrace {α : Type} (hasComm : Bool) (yy yp : α)
    (evalArgs : List (α × α)) : List (Event α) :=
  Event.resCall yy yp ::
    ((if hasComm then [Event.commCall yy yp] else []) ++
      evalArgs.map (fun p => Event.glocalCall p.1 p.2))

/-- Recognizer for communication-hook events. -/
def isCommCall {α : Type} : Event α → Bool
  | Event.commCall _ _ => true
  | _ => false

/-- Example preconditioner state: the end-to-end example of the spec,
local length 10, evaluation half-bandwidths 2, kept half-bandwidths 1,
no communication hook; exactly what a successful initialization with
`dq_rel_yy = 0` stores. -/
def pdEx : IBBDPrecData :=
  { n_local := 10
    mudq := 2
    mldq := 2
    mukeep := 1
    mlkeep := 1
    rel_yy := sqrtUround
    PP := fun _ _ => 0
    pivotsLen := 10
    scratch1Len := 10
    scratch2Len := 10
    factored := none
    nge := 0
    rpwsize := 50
    ipwsize := 10
    hasComm := false }

/-- Example state with a communication hook supplied. -/
def pdExComm : IBBDPrecData :=
  { pdEx with hasComm := true }

/-- Example state carrying a committed factorization from an earlier
successful setup. -/
def pdExFact : IBBDPrecData :=
  { pdEx with factored := some (fun _ _ => 1) }

/-- Example integrator context with linear-solver memory attached and no
preconditioner state yet. -/
def memEx : IDAMemRec := { lmem := some { pdata := none } }

/-- Example integrator context holding the example preconditioner
state. -/
def memExInit : IDAMemRec := { lmem := some { pdata := some pdEx } }

/-! ### Helper lemmas -/

theorem firstFailAux_eq_none (f : Nat → Int) (m : Nat) :
    ∀ s : Nat, (∀ i, s ≤ i → i < s + m → f i = 0) →
      firstFailAux f s m = none := by
  induction m with
  | zero => intro s _; rfl
  | succ m ih =>
    intro s h
    unfold firstFailAux
    rw [if_neg (not_not_intro (h s le_rfl (by omega)))]
    exact ih (s + 1) (fun i h1 h2 => h i (by omega) (by omega))

theorem firstFail_eq_none (f : Nat → Int) (m : Nat)
    (h : ∀ i, i < m → f i = 0) : firstFail f m = none :=
  firstFailAux_eq_none f m 0 (fun i _ h2 => h i (by omega))

theorem firstFailAux_eq_some (f : Nat → Int) (k : Nat) (m : Nat) :
    ∀ s : Nat, s ≤ k → k < s + m → (∀ i, s ≤ i → i < k → f i = 0) →
      f k ≠ 0 → firstFailAux f s m = some (k, f k) := by
  induction m with
  | zero => intro s h1 h2 _ _; omega
  | succ m ih =>
    intro s hsk hk hzero hfk
    unfold firstFailAux
    by_cases hs : f s ≠ 0
    · rw [if_pos hs]
      have heq : s = k := by
        by_contra hne
        exact hs (hzero s le_rfl (by omega))
      rw [heq]
    · rw [if_neg hs]
      have hne : s ≠ k := fun he => hs (he ▸ hfk)
      exact ih (s + 1) (by omega) (by omega)
        (fun i h1 h2 => hzero i (by omega) h2) hfk

theorem firstFail_eq_some (f : Nat → Int) (k m : Nat)
    (hk : k < m) (hzero : ∀ i, i < k → f i = 0) (hfk : f k ≠ 0) :
    firstFail f m = some (k, f k) :=
  firstFailAux_eq_some f k m 0 (Nat.zero_le k) (by omega)
    (fun i _ h2 => hzero i h2) hfk

theorem precSetup_comm_pos (pd : IBBDPrecData) (gr : Int) (gl : Nat → Int)
    (cols : Int → Int → ℚ) (fOk : Bool)
    (hc : pd.hasComm = true) (hg : 0 < gr) :
    precSetup pd gr gl cols fOk = (SetupOutcome.recoverable, pd) := by
  simp [precSetup, hc, hg]

theorem precSetup_comm_neg (pd : IBBDPrecData) (gr : Int) (gl : Nat → Int)
    (cols : Int → Int → ℚ) (fOk : Bool)
    (hc : pd.hasComm = true) (hg : gr < 0) :
    precSetup pd gr gl cols fOk = (SetupOutcome.unrecoverable, pd) := by
  have hng : ¬ (0 < gr) := by omega
  simp [precSetup, hc, hg, hng]

theorem precSetup_eval_fail (pd : IBBDPrecData) (gr : Int) (gl : Nat → Int)
    (cols : Int → Int → ℚ) (fOk : Bool) (k : Nat) (r : Int)
    (h0 : pd.hasComm = false ∨ gr = 0)
    (hff : firstFail gl (groupCount pd + 1) = some (k, r)) :
    precSetup pd gr gl cols fOk =
      (if 0 < r then SetupOutcome.recoverable else SetupOutcome.unrecoverable,
        { pd with nge := pd.nge + k + 1 }) := by
  have h1 : ¬ (pd.hasComm = true ∧ 0 < gr) := by
    rcases h0 with h | h <;> simp [h]
  have h2 : ¬ (pd.hasComm = true ∧ gr < 0) := by
    rcases h0 with h | h <;> simp [h]
  by_cases hr : 0 < r <;> simp [precSetup, h1, h2, hff, hr]

theorem precSetup_sweep_done (pd : IBBDPrecData) (gr : Int) (gl : Nat → Int)
    (cols : Int → Int → ℚ) (fOk : Bool)
    (h0 : pd.hasComm = false ∨ gr = 0)
    (hff : firstFail gl (groupCount pd + 1) = none) :
    precSetup pd gr gl cols fOk =
      (if fOk then
        (SetupOutcome.success,
          { pd with
            nge := pd.nge + groupCount pd + 1
            PP := buildPP pd.n_local.toNat pd.mukeep pd.mlkeep cols
            factored := some (buildPP pd.n_local.toNat pd.mukeep pd.mlkeep cols) })
      else
        (SetupOutcome.recoverable,
          { pd with nge := pd.nge + groupCount pd + 1 })) := by
  have h1 : ¬ (pd.hasComm = true ∧ 0 < gr) := by
    rcases h0 with h | h <;> simp [h]
  have h2 : ¬ (pd.hasComm = true ∧ gr < 0) := by
    rcases h0 with h | h <;> simp [h]
  rcases fOk with _ | _ <;> simp [precSetup, h1, h2, hff]

theorem precSetup_branches (pd : IBBDPrecData) (gr : Int) (gl : Nat → Int)
    (cols : Int → Int → ℚ) (fOk : Bool) :
    (pd.hasComm = true ∧ 0 < gr) ∨ (pd.hasComm = true ∧ gr < 0) ∨
      ((pd.hasComm = false ∨ gr = 0) ∧
        (firstFail gl (groupCount pd + 1) = none ∨
          ∃ k r, firstFail gl (groupCount pd + 1) = some (k, r))) := by
  by_cases h1 : pd.hasComm = true ∧ 0 < gr
  · exact Or.inl h1
  · by_cases h2 : pd.hasComm = true ∧ gr < 0
    · exact Or.inr (Or.inl h2)
    · refine Or.inr (Or.inr ⟨?_, ?_⟩)
      · cases hb : pd.hasComm with
        | false => exact Or.inl rfl
        | true =>
          right
          have hng : ¬ 0 < gr := fun hg => h1 ⟨hb, hg⟩
          have hnl : ¬ gr < 0 := fun hg => h2 ⟨hb, hg⟩
          omega
      · rcases hff : firstFail gl (groupCount pd + 1) with _ | kr
        · exact Or.inl rfl
        · exact Or.inr ⟨kr.1, kr.2, rfl⟩

theorem precSetup_nge_of_success (pd : IBBDPrecData) (gr : Int)
    (gl : Nat → Int) (cols : Int → Int → ℚ) (fOk : Bool)
    (h : (precSetup pd gr gl cols fOk).1 = SetupOutcome.success) :
    ((precSetup pd gr gl cols fOk).2).nge = pd.nge + groupCount pd + 1 := by
  rcases precSetup_branches pd gr gl cols fOk with h1 | h2 | ⟨h0, hc⟩
  · rw [precSetup_comm_pos pd gr gl cols fOk h1.1 h1.2] at h
    exact absurd h (by simp)
  · rw [precSetup_comm_neg pd gr gl cols fOk h2.1 h2.2] at h
    exact absurd h (by simp)
  · rcases hc with hff | ⟨k, r, hff⟩
    · rw [precSetup_sweep_done pd gr gl cols fOk h0 hff] at h ⊢
      rcases fOk with _ | _
      · exact absurd h (by simp)
      · simp
    · rw [precSetup_eval_fail pd gr gl cols fOk k r h0 hff] at h
      by_cases hr : 0 < r <;> simp [hr] at h

theorem precSetup_nge_mono (pd : IBBDPrecData) (gr : Int)
    (gl : Nat → Int) (cols : Int → Int → ℚ) (fOk : Bool) :
    pd.nge ≤ ((precSetup pd gr gl cols fOk).2).nge := by
  rcases precSetup_branches pd gr gl cols fOk with h1 | h2 | ⟨h0, hc⟩
  · rw [precSetup_comm_pos pd gr gl cols fOk h1.1 h1.2]
  · rw [precSetup_comm_neg pd gr gl cols fOk h2.1 h2.2]
  · rcases hc with hff | ⟨k, r, hff⟩
    · rw [precSetup_sweep_done pd gr gl cols fOk h0 hff]
      rcases fOk with _ | _ <;> simp <;> omega
    · rw [precSetup_eval_fail pd gr gl cols fOk k r h0 hff]
      show pd.nge ≤ pd.nge + k + 1
      omega

theorem precSetup_factored_of_fail (pd : IBBDPrecData) (gr : Int)
    (gl : Nat → Int) (cols : Int → Int → ℚ) (fOk : Bool)
    (h : (precSetup pd gr gl cols fOk).1 ≠ SetupOutcome.success) :
    ((precSetup pd gr gl cols fOk).2).factored = pd.factored := by
  rcases precSetup_branches pd gr gl cols fOk with h1 | h2 | ⟨h0, hc⟩
  · rw [precSetup_comm_pos pd gr gl cols fOk h1.1 h1.2]
  · rw [precSetup_comm_neg pd gr gl cols fOk h2.1 h2.2]
  · rcases hc with hff | ⟨k, r, hff⟩
    · rw [precSetup_sweep_done pd gr gl cols fOk h0 hff] at h ⊢
      rcases fOk with _ | _
      · simp
      · simp at h
    · rw [precSetup_eval_fail pd gr gl cols fOk k r h0 hff]

theorem precSetup_PP_of_success (pd : IBBDPrecData) (gr : Int)
    (gl : Nat → Int) (cols : Int → Int → ℚ) (fOk : Bool)
    (h : (precSetup pd gr gl cols fOk).1 = SetupOutcome.success) :
    ((precSetup pd gr gl cols fOk).2).PP =
      buildPP pd.n_local.toNat pd.mukeep pd.mlkeep cols := by
  rcases precSetup_branches pd gr gl cols fOk with h1 | h2 | ⟨h0, hc⟩
  · rw [precSetup_comm_pos pd gr gl cols fOk h1.1 h1.2] at h
    exact absurd h (by simp)
  · rw [precSetup_comm_neg pd gr gl cols fOk h2.1 h2.2] at h
    exact absurd h (by simp)
  · rcases hc with hff | ⟨k, r, hff⟩
    · rw [precSetup_sweep_done pd gr gl cols fOk h0 hff] at h ⊢
      rcases fOk with _ | _
      · exact absurd h (by simp)
      · simp
    · rw [precSetup_eval_fail pd gr gl cols fOk k r h0 hff] at h
      by_cases hr : 0 < r <;> simp [hr] at h

theorem getWorkSpace_frame (ctx : IDAContext) :
    (IDABBDPrecGetWorkSpace ctx).2.2 = ctx := by
  rcases ctx with _ | mem
  · rfl
  · rcases hm : mem.lmem with _ | lm
    · simp [IDABBDPrecGetWorkSpace, hm]
    · rcases hp : lm.pdata with _ | pd <;>
        simp [IDABBDPrecGetWorkSpace, hm, hp]

theorem getNumGfnEvals_frame (ctx : IDAContext) :
    (IDABBDPrecGetNumGfnEvals ctx).2.2 = ctx := by
  rcases ctx with _ | mem
  · rfl
  · rcases hm : mem.lmem with _ | lm
    · simp [IDABBDPrecGetNumGfnEvals, hm]
    · rcases hp : lm.pdata with _ | pd <;>
        simp [IDABBDPrecGetNumGfnEvals, hm, hp]

theorem buildPP_eq (n : Nat) (mukeep mlkeep : Int) (cols : Int → Int → ℚ) :
    ∀ (m : Nat) (i j : Int),
      (List.range m).foldl
        (fun M (jn : Nat) =>
          writeColumn n mukeep mlkeep (Int.ofNat jn)
            (fun i2 => cols i2 (Int.ofNat jn)) M)
        (fun _ _ => 0) i j =
      if 0 ≤ j ∧ j < (m : Int) ∧ max 0 (j - mukeep) ≤ i ∧
          i ≤ min ((n : Int) - 1) (j + mlkeep)
      then cols i j else 0 := by
  intro m
  induction m with
  | zero =>
    intro i j
    rw [List.range_zero, List.foldl_nil, if_neg]
    rintro ⟨h1, h2, -, -⟩
    omega
  | succ m ih =>
    intro i j
    rw [List.range_succ, List.foldl_append, List.foldl_cons, List.foldl_nil]
    have hofNat : Int.ofNat m = (m : Int) := rfl
    rw [writeColumn, hofNat]
    by_cases hc : j = (m : Int) ∧ max 0 ((m : Int) - mukeep) ≤ i ∧
        i ≤ min ((n : Int) - 1) ((m : Int) + mlkeep)
    · rw [if_pos hc]
      obtain ⟨hj, hlo, hhi⟩ := hc
      rw [if_pos]
      · rw [hj]
      · subst hj
        refine ⟨by positivity, by push_cast; omega, hlo, hhi⟩
    · rw [if_neg hc, ih i j]
      by_cases hd : 0 ≤ j ∧ j < (m : Int) ∧ max 0 (j - mukeep) ≤ i ∧
          i ≤ min ((n : Int) - 1) (j + mlkeep)
      · rw [if_pos hd, if_pos]
        obtain ⟨h1, h2, h3, h4⟩ := hd
        exact ⟨h1, by push_cast; omega, h3, h4⟩
      · rw [if_neg hd, if_neg]
        rintro ⟨h1, h2, h3, h4⟩
        apply hd
        refine ⟨h1, ?_, h3, h4⟩
        by_contra hge
        have hj : j = (m : Int) := by push_cast at h2; omega
        exact hc ⟨hj, hj ▸ h3, hj ▸ h4⟩

theorem buildPP_apply (n : Nat) (mukeep mlkeep : Int) (cols : Int → Int → ℚ)
    (i j : Int) :
    buildPP n mukeep mlkeep cols i j =
      if 0 ≤ j ∧ j < (n : Int) ∧ max 0 (j - mukeep) ≤ i ∧
          i ≤ min ((n : Int) - 1) (j + mlkeep)
      then cols i j else 0 :=
  buildPP_eq n mukeep mlkeep cols n i j

theorem buildPP_outside_kept (n : Nat) (mukeep mlkeep : Int)
    (cols : Int → Int → ℚ) (i j : Int)
    (h : i < j - mukeep ∨ j + mlkeep < i) :
    buildPP n mukeep mlkeep cols i j = 0 := by
  rw [buildPP_apply, if_neg]
  rintro ⟨-, -, h3, h4⟩
  rcases h with h | h
  · have := le_trans (le_max_right 0 (j - mukeep)) h3
    omega
  · have := le_trans h4 (min_le_right ((n : Int) - 1) (j + mlkeep))
    omega

theorem buildPP_inside_kept (n : Nat) (mukeep mlkeep : Int)
    (cols : Int → Int → ℚ) (i j : Int)
    (h1 : 0 ≤ j) (h2 : j < (n : Int)) (h3 : max 0 (j - mukeep) ≤ i)
    (h4 : i ≤ min ((n : Int) - 1) (j + mlkeep)) :
    buildPP n mukeep mlkeep cols i j = cols i j := by
  rw [buildPP_apply, if_pos ⟨h1, h2, h3, h4⟩]

/-! ### Claims -/

/-- C1: after every successful preconditioner setup the cumulative
local-evaluator call counter rises by exactly `groupCount + 1`, where
`groupCount = ceil(localLength / (evalUpper + evalLower + 1))`, and the
counter never decreases: setup only adds to it, reinitialization keeps
it, and the accessors leave the whole state untouched. -/
theorem C1_local_eval_counter (pd : IBBDPrecData) (gr : Int) (gl : Nat → Int)
    (cols : Int → Int → ℚ) (fOk : Bool) (mudq mldq : Int) (dq : ℚ) :
    ((precSetup pd gr gl cols fOk).1 = SetupOutcome.success →
      ((precSetup pd gr gl cols fOk).2).nge = pd.nge + groupCount pd + 1) ∧
    pd.nge ≤ ((precSetup pd gr gl cols fOk).2).nge ∧
    (reinitPd pd mudq mldq dq).nge = pd.nge ∧
    (∀ ctx : IDAContext, (IDABBDPrecGetWorkSpace ctx).2.2 = ctx) ∧
    (∀ ctx : IDAContext, (IDABBDPrecGetNumGfnEvals ctx).2.2 = ctx) :=
  ⟨precSetup_nge_of_success pd gr gl cols fOk,
   precSetup_nge_mono pd gr gl cols fOk, rfl,
   getWorkSpace_frame, getNumGfnEvals_frame⟩

/-- Witness: on the spec's end-to-end example state (local length 10,
evaluation half-bandwidths 2) a successful setup performs
ceil(10/5) + 1 = 3 local evaluations. -/
theorem C1_local_eval_counter_witness :
    ((precSetup pdEx 0 (fun _ => 0) (fun _ _ => 0) true).2).nge =
      pdEx.nge + groupCount pdEx + 1 :=
  (C1_local_eval_counter pdEx 0 (fun _ => 0) (fun _ _ => 0) true 2 2 0).1 rfl

/-- C2: initialization with a nonpositive local length, a kept
half-bandwidth exceeding the matching evaluation half-bandwidth, or an
evaluation half-bandwidth exceeding localLength − 1 returns the
illegal-input status and produces no preconditioner storage. -/
theorem C2_init_illegal_input (mem : IDAMemRec) (lm : IDALMemRec)
    (Nlocal mudq mldq mukeep mlkeep : Int) (dq : ℚ) (hasComm allocOk : Bool)
    (hlm : mem.lmem = some lm)
    (hbad : Nlocal ≤ 0 ∨ mukeep > mudq ∨ mlkeep > mldq ∨
      mudq > Nlocal - 1 ∨ mldq > Nlocal - 1) :
    IDABBDPrecInit (some mem) Nlocal mudq mldq mukeep mlkeep dq hasComm
      allocOk = (Status.illInput, none) := by
  have hb : initInputBad Nlocal mudq mldq mukeep mlkeep := hbad
  simp [IDABBDPrecInit, hlm, hb]

/-- Witness: the spec's example — keepUpper = 3 exceeds evalUpper = 2 —
fails with IllegalInput and allocates nothing. -/
theorem C2_init_illegal_input_witness :
    IDABBDPrecInit (some memEx) 10 2 2 3 1 0 false true =
      (Status.illInput, none) :=
  C2_init_illegal_input memEx { pdata := none } 10 2 2 3 1 0 false true rfl
    (Or.inr (Or.inl (by norm_num)))

/-- C3: for valid bandwidth configurations (kept ≤ evaluation widths),
the matrix a setup sweep stores keeps entries only within the kept
half-bandwidths of the diagonal — outside them every entry is zero —
while inside the kept band each stored entry is the computed
difference-quotient column value; the matrix committed by a successful
setup has the same containment for the state's kept half-bandwidths. -/
theorem C3_kept_band_discard (n : Nat) (mudq mldq mukeep mlkeep : Int)
    (cols : Int → Int → ℚ) (hu : mukeep ≤ mudq) (hl : mlkeep ≤ mldq) :
    (∀ i j : Int, (i < j - mukeep ∨ j + mlkeep < i) →
      buildPP n mukeep mlkeep cols i j = 0) ∧
    (∀ i j : Int, 0 ≤ j → j < (n : Int) → max 0 (j - mukeep) ≤ i →
      i ≤ min ((n : Int) - 1) (j + mlkeep) →
      buildPP n mukeep mlkeep cols i j = cols i j) ∧
    (∀ (pd : IBBDPrecData) (gr : Int) (gl : Nat → Int) (fOk : Bool),
      pd.mukeep = mukeep → pd.mlkeep = mlkeep →
      (precSetup pd gr gl cols fOk).1 = SetupOutcome.success →
      ∀ i j : Int, (i < j - mukeep ∨ j + mlkeep < i) →
        ((precSetup pd gr gl cols fOk).2).PP i j = 0) := by
  refine ⟨fun i j h => buildPP_outside_kept n mukeep mlkeep cols i j h,
    fun i j h1 h2 h3 h4 => buildPP_inside_kept n mukeep mlkeep cols i j h1 h2 h3 h4,
    ?_⟩
  intro pd gr gl fOk hmu hml hsucc i j hout
  rw [precSetup_PP_of_success pd gr gl cols fOk hsucc, hmu, hml]
  exact buildPP_outside_kept pd.n_local.toNat mukeep mlkeep cols i j hout

/-- Witness: with kept half-bandwidths 1 inside evaluation
half-bandwidths 2 on a 10-long block, the entry two below the diagonal
is discarded while the subdiagonal entry holds the computed value. -/
theorem C3_kept_band_discard_witness :
    buildPP 10 1 1 (fun i j => (i + 2 * j : ℚ)) 4 2 = 0 ∧
    buildPP 10 1 1 (fun i j => (i + 2 * j : ℚ)) 3 2 = (3 + 2 * 2 : ℚ) :=
  ⟨(C3_kept_band_discard 10 2 2 1 1 (fun i j => (i + 2 * j : ℚ))
      (by norm_num) (by norm_num)).1 4 2 (Or.inr (by norm_num)),
   (C3_kept_band_discard 10 2 2 1 1 (fun i j => (i + 2 * j : ℚ))
      (by norm_num) (by norm_num)).2.1 3 2 (by norm_num) (by norm_num)
      (by norm_num) (by norm_num)⟩

/-- C4: a setup attempt that does not succeed leaves the committed
factorization exactly as it was, so a factorization committed by an
earlier successful setup stays in place and Apply keeps solving against
it. -/
theorem C4_failed_setup_atomic (pd : IBBDPrecData) (gr : Int)
    (gl : Nat → Int) (cols : Int → Int → ℚ) (fOk : Bool)
    (h : (precSetup pd gr gl cols fOk).1 ≠ SetupOutcome.success) :
    ((precSetup pd gr gl cols fOk).2).factored = pd.factored ∧
    ∀ (solve : (Int → Int → ℚ) → (Int → ℚ) → (Int → ℚ)) (r : Int → ℚ),
      precApply ((precSetup pd gr gl cols fOk).2) solve r =
        precApply pd solve r := by
  have hf := precSetup_factored_of_fail pd gr gl cols fOk h
  exact ⟨hf, fun solve r => by simp only [precApply, hf]⟩

/-- Witness: a recoverable local-evaluator failure on a state holding a
factorization leaves that factorization in place. -/
theorem C4_failed_setup_atomic_witness :
    ((precSetup pdExFact 0 (fun _ => 1) (fun _ _ => 0) true).2).factored =
      pdExFact.factored :=
  (C4_failed_setup_atomic pdExFact 0 (fun _ => 1) (fun _ _ => 0) true
    (by decide)).1

/-- C5: reinitialization on an initialized context succeeds; it changes
only the two evaluation half-bandwidths and the perturbation factor,
while the local length, kept half-bandwidths, banded matrix, pivot and
scratch storage, committed factorization, counters and work-space sizes
are untouched — nothing is reallocated. -/
theorem C5_reinit_frame (mem : IDAMemRec) (lm : IDALMemRec)
    (pd : IBBDPrecData) (mudq mldq : Int) (dq : ℚ)
    (hm : mem.lmem = some lm) (hp : lm.pdata = some pd) :
    IDABBDPrecReInit (some mem) mudq mldq dq =
      (Status.success,
        some { lmem := some { pdata := some (reinitPd pd mudq mldq dq) } }) ∧
    (reinitPd pd mudq mldq dq).n_local = pd.n_local ∧
    (reinitPd pd mudq mldq dq).mukeep = pd.mukeep ∧
    (reinitPd pd mudq mldq dq).mlkeep = pd.mlkeep ∧
    (reinitPd pd mudq mldq dq).PP = pd.PP ∧
    (reinitPd pd mudq mldq dq).pivotsLen = pd.pivotsLen ∧
    (reinitPd pd mudq mldq dq).scratch1Len = pd.scratch1Len ∧
    (reinitPd pd mudq mldq dq).scratch2Len = pd.scratch2Len ∧
    (reinitPd pd mudq mldq dq).factored = pd.factored ∧
    (reinitPd pd mudq mldq dq).nge = pd.nge ∧
    (reinitPd pd mudq mldq dq).rpwsize = pd.rpwsize ∧
    (reinitPd pd mudq mldq dq).ipwsize = pd.ipwsize ∧
    (reinitPd pd mudq mldq dq).hasComm = pd.hasComm ∧
    (reinitPd pd mudq mldq dq).mudq = mudq ∧
    (reinitPd pd mudq mldq dq).mldq = mldq ∧
    (reinitPd pd mudq mldq dq).rel_yy =
      (if dq = 0 then sqrtUround else dq) := by
  refine ⟨?_, rfl, rfl, rfl, rfl, rfl, rfl, rfl, rfl, rfl, rfl, rfl, rfl,
    rfl, rfl, rfl⟩
  simp [IDABBDPrecReInit, hm, hp]

/-- Witness: reinitializing the example initialized context with wider
evaluation half-bandwidths succeeds and swaps in exactly those fields. -/
theorem C5_reinit_frame_witness :
    IDABBDPrecReInit (some memExInit) 3 3 1 =
      (Status.success,
        some { lmem := some { pdata := some (reinitPd pdEx 3 3 1) } }) :=
  (C5_reinit_frame memExInit { pdata := some pdEx } pdEx 3 3 1 rfl rfl).1

/-- C6: during setup a positive return code from the communication hook
or from any local-evaluator call propagates as a recoverable failure, a
negative one as an unrecoverable failure, and when every consulted code
is zero the sweep completes and setup proceeds to factorization. -/
theorem C6_callback_signal_propagation (pd : IBBDPrecData) (gr : Int)
    (gl : Nat → Int) (cols : Int → Int → ℚ) (fOk : Bool) :
    (pd.hasComm = true → 0 < gr →
      (precSetup pd gr gl cols fOk).1 = SetupOutcome.recoverable) ∧
    (pd.hasComm = true → gr < 0 →
      (precSetup pd gr gl cols fOk).1 = SetupOutcome.unrecoverable) ∧
    ((pd.hasComm = false ∨ gr = 0) →
      (∀ k, k ≤ groupCount pd → (∀ i, i < k → gl i = 0) → 0 < gl k →
        (precSetup pd gr gl cols fOk).1 = SetupOutcome.recoverable) ∧
      (∀ k, k ≤ groupCount pd → (∀ i, i < k → gl i = 0) → gl k < 0 →
        (precSetup pd gr gl cols fOk).1 = SetupOutcome.unrecoverable) ∧
      ((∀ k, k ≤ groupCount pd → gl k = 0) →
        (precSetup pd gr gl cols fOk).1 =
          if fOk then SetupOutcome.success else SetupOutcome.recoverable)) := by
  refine ⟨?_, ?_, ?_⟩
  · intro hc hg
    rw [precSetup_comm_pos pd gr gl cols fOk hc hg]
  · intro hc hg
    rw [precSetup_comm_neg pd gr gl cols fOk hc hg]
  · intro h0
    refine ⟨?_, ?_, ?_⟩
    · intro k hk hz hpos
      have hff := firstFail_eq_some gl k (groupCount pd + 1) (by omega) hz
        (by omega)
      rw [precSetup_eval_fail pd gr gl cols fOk k (gl k) h0 hff]
      simp [hpos]
    · intro k hk hz hneg
      have hff := firstFail_eq_some gl k (groupCount pd + 1) (by omega) hz
        (by omega)
      rw [precSetup_eval_fail pd gr gl cols fOk k (gl k) h0 hff]
      have hnp : ¬ 0 < gl k := by omega
      simp [hnp]
    · intro hz
      have hff := firstFail_eq_none gl (groupCount pd + 1)
        (fun i hi => hz i (by omega))
      rw [precSetup_sweep_done pd gr gl cols fOk h0 hff]
      rcases fOk with _ | _ <;> simp

/-- Witness: a communication hook returning +1 on the example state with
a hook supplied makes the setup fail recoverably. -/
theorem C6_callback_signal_propagation_witness :
    (precSetup pdExComm 1 (fun _ => 0) (fun _ _ => 0) true).1 =
      SetupOutcome.recoverable :=
  (C6_callback_signal_propagation pdExComm 1 (fun _ => 0) (fun _ _ => 0)
    true).1 rfl (by norm_num)

/-- C7: an initialization that passes relative perturbation factor 0
stores the square root of the unit roundoff — a nonzero value — and
every difference-quotient perturbation formed afterwards uses that
value, never 0. -/
theorem C7_zero_perturbation_default (ctx : IDAContext)
    (Nlocal mudq mldq mukeep mlkeep : Int) (hasComm allocOk : Bool)
    (s : Status) (pd : IBBDPrecData)
    (h : IDABBDPrecInit ctx Nlocal mudq mldq mukeep mlkeep 0 hasComm allocOk
      = (s, some pd)) :
    pd.rel_yy = sqrtUround ∧ sqrtUround ≠ 0 ∧
      ∀ flo yj : ℚ, perturbation pd.rel_yy flo yj =
        max (sqrtUround * |yj|) flo := by
  have hrel : pd.rel_yy = sqrtUround := by
    rcases ctx with _ | mem
    · simp [IDABBDPrecInit] at h
    · rcases hm : mem.lmem with _ | lm
      · simp [IDABBDPrecInit, hm] at h
      · by_cases hbad : initInputBad Nlocal mudq mldq mukeep mlkeep
        · simp [IDABBDPrecInit, hm, hbad] at h
        · rcases allocOk with _ | _
          · simp [IDABBDPrecInit, hm, hbad] at h
          · simp [IDABBDPrecInit, hm, hbad] at h
            rw [← h.2]
  refine ⟨hrel, by norm_num [sqrtUround], fun flo yj => ?_⟩
  rw [perturbation, hrel]

/-- Witness: initializing the example context with perturbation factor 0
yields the example state, whose stored factor is sqrt uround and whose
perturbations use it. -/
theorem C7_zero_perturbation_default_witness :
    pdEx.rel_yy = sqrtUround ∧ sqrtUround ≠ 0 ∧
      ∀ flo yj : ℚ, perturbation pdEx.rel_yy flo yj =
        max (sqrtUround * |yj|) flo :=
  C7_zero_perturbation_default (some memEx) 10 2 2 1 1 false true
    Status.success pdEx rfl

/-- C8: in the trace of one setup request, every communication-hook call
carries the same state and derivative vectors as the system residual
call preceding it, and when no communication function was supplied the
hook is never invoked. -/
theorem C8_comm_preceded_by_res {α : Type} (hasComm : Bool) (yy yp : α)
    (evalArgs : List (α × α)) :
    (∀ (i : Nat) (v w : α),
      (setupTrace hasComm yy yp evalArgs)[i]? =
        some (Event.commCall v w) →
      v = yy ∧ w = yp ∧ ∃ j, j < i ∧
        (setupTrace hasComm yy yp evalArgs)[j]? =
          some (Event.resCall v w)) ∧
    (hasComm = false →
      ∀ e ∈ setupTrace hasComm yy yp evalArgs, isCommCall e = false) := by
  constructor
  · intro i v w hi
    rcases hasComm with _ | _
    · rcases i with _ | k
      · simp [setupTrace] at hi
      · rw [setupTrace] at hi
        simp only [Bool.false_eq_true, if_neg, List.nil_append,
          List.getElem?_cons_succ, ite_false] at hi
        rw [List.getElem?_map] at hi
        rcases hg : evalArgs[k]? with _ | p
        · rw [hg] at hi; simp at hi
        · rw [hg] at hi; simp at hi
    · rcases i with _ | i
      · simp [setupTrace] at hi
      · rcases i with _ | k
        · rw [setupTrace] at hi
          simp only [ite_true, List.cons_append, List.getElem?_cons_succ,
            List.getElem?_cons_zero, Option.some.injEq] at hi
          obtain ⟨hv, hw⟩ := Event.commCall.inj hi
          refine ⟨hv.symm, hw.symm, 0, by omega, ?_⟩
          rw [setupTrace, hv, hw]
          rfl
        · rw [setupTrace] at hi
          simp only [ite_true, List.cons_append, List.nil_append,
            List.getElem?_cons_succ] at hi
          rw [List.getElem?_map] at hi
          rcases hg : evalArgs[k]? with _ | p
          · rw [hg] at hi; simp at hi
          · rw [hg] at hi; simp at hi
  · intro hc e he
    subst hc
    rw [setupTrace] at he
    simp only [Bool.false_eq_true, ite_false, List.nil_append,
      List.mem_cons, List.mem_map] at he
    rcases he with he | ⟨p, -, he⟩
    · rw [he]; rfl
    · rw [← he]; rfl

/-- Witness: in the example trace with a hook supplied, the hook call at
position 1 carries the residual call's vectors, found at position 0. -/
theorem C8_comm_preceded_by_res_witness :
    (1 : Nat) = 1 ∧ (2 : Nat) = 2 ∧ ∃ j, j < 1 ∧
      (setupTrace true (1 : Nat) (2 : Nat) [((3 : Nat), (4 : Nat))])[j]? =
        some (Event.resCall 1 2) :=
  (C8_comm_preceded_by_res true 1 2 [(3, 4)]).1 1 1 2 rfl

/-- C9: reinitialization validates no argument values — whatever
evaluation half-bandwidths and perturbation factor are passed, its
status is one of Success, MissingContext, MissingLinearSolverContext and
MissingPreconditionerState, so IllegalInput is impossible. -/
theorem C9_reinit_no_illegal_input (ctx : IDAContext) (mudq mldq : Int)
    (dq : ℚ) :
    (IDABBDPrecReInit ctx mudq mldq dq).1 = Status.success ∨
    (IDABBDPrecReInit ctx mudq mldq dq).1 = Status.memNull ∨
    (IDABBDPrecReInit ctx mudq mldq dq).1 = Status.lmemNull ∨
    (IDABBDPrecReInit ctx mudq mldq dq).1 = Status.pmemNull := by
  rcases ctx with _ | mem
  · right; left; rfl
  · rcases hm : mem.lmem with _ | lm
    · right; right; left
      simp [IDABBDPrecReInit, hm]
    · rcases hp : lm.pdata with _ | pd
      · right; right; right
        simp [IDABBDPrecReInit, hm, hp]
      · left
        simp [IDABBDPrecReInit, hm, hp]

/-- C10: before initialization both accessors return the
missing-preconditioner-state status and no output values; on an
initialized state they return success with the stored cumulative
figures; in every case the context comes back unchanged. -/
theorem C10_accessor_contract (mem : IDAMemRec) (lm : IDALMemRec)
    (hm : mem.lmem = some lm) :
    (lm.pdata = none →
      IDABBDPrecGetWorkSpace (some mem) = (Status.pmemNull, none, some mem) ∧
      IDABBDPrecGetNumGfnEvals (some mem) =
        (Status.pmemNull, none, some mem)) ∧
    (∀ pd, lm.pdata = some pd →
      IDABBDPrecGetWorkSpace (some mem) =
        (Status.success, some (pd.rpwsize, pd.ipwsize), some mem) ∧
      IDABBDPrecGetNumGfnEvals (some mem) =
        (Status.success, some pd.nge, some mem)) := by
  constructor
  · intro hp
    constructor
    · simp [IDABBDPrecGetWorkSpace, hm, hp]
    · simp [IDABBDPrecGetNumGfnEvals, hm, hp]
  · intro pd hp
    constructor
    · simp [IDABBDPrecGetWorkSpace, hm, hp]
    · simp [IDABBDPrecGetNumGfnEvals, hm, hp]

/-- Witness: on the uninitialized example context both accessors report
the missing-state status with no outputs, and on the initialized example
context they report success with the stored figures. -/
theorem C10_accessor_contract_witness :
    (IDABBDPrecGetWorkSpace (some memEx) =
        (Status.pmemNull, none, some memEx) ∧
      IDABBDPrecGetNumGfnEvals (some memEx) =
        (Status.pmemNull, none, some memEx)) ∧
    (IDABBDPrecGetWorkSpace (some memExInit) =
        (Status.success, some (pdEx.rpwsize, pdEx.ipwsize), some memExInit) ∧
      IDABBDPrecGetNumGfnEvals (some memExInit) =
        (Status.success, some pdEx.nge, some memExInit)) :=
  ⟨(C10_accessor_contract memEx { pdata := none } rfl).1 rfl,
   (C10_accessor_contract memExInit { pdata := some pdEx } rfl).2 pdEx rfl⟩

end IDABBDPre
